import Mathlib

/-!
Verification of the WeChat chat extractor (wechat_chat_extractor.py).

Shallow embedding conventions:
* SQLite cell values are modelled by `Value` (integers, strings, NULL);
  BLOB cells and the UTF-8/hex decoding branch are outside the modelled
  value domain (no claim mentions them).
* Machine time (`datetime.now`) is threaded as an explicit string
  parameter; `datetime.fromtimestamp` is modelled at UTC with whole-second
  precision and the CPython year range 1..9999 (out-of-range instants
  raise, which the source catches and turns into `None`).
* The SQLCipher connection is modelled by an oracle `probe : String → Bool`
  telling which `PRAGMA key = <format>` attempts make the probe query
  succeed.
-/

namespace WeChatExtractor

/-- The single-quote character (code 39). -/
def squote : Char := Char.ofNat 39

/-- The double-quote character (code 34). -/
def dquote : Char := Char.ofNat 34

/-- Single-quote as a string. -/
def sq : String := String.singleton squote

/-- Double-quote as a string. -/
def dq : String := String.singleton dquote

/-!
String primitives are re-implemented over the character list so that every
definition evaluates inside the kernel; each mirrors the corresponding
Python `str` operation.
-/

/-- Python `s.lower()` (ASCII case folding). -/
def pyLower (s : String) : String := ⟨s.data.map Char.toLower⟩

/-- Python `s.startswith(p)`. -/
def strStartsWith (s p : String) : Bool := p.data.isPrefixOf s.data

/-- Python `s.endswith(p)`. -/
def strEndsWith (s p : String) : Bool := p.data.reverse.isPrefixOf s.data.reverse

/-- Longest prefix of characters satisfying `p`. -/
def strTakeWhile (p : Char → Bool) (s : String) : String := ⟨s.data.takeWhile p⟩

/-- Python `s.strip()`: remove leading and trailing whitespace. -/
def pyStrip (s : String) : String :=
  ⟨((s.data.dropWhile Char.isWhitespace).reverse.dropWhile Char.isWhitespace).reverse⟩

/-- `p.all` over the characters of a string. -/
def strAll (p : Char → Bool) (s : String) : Bool := s.data.all p

/-- Split a character list at every occurrence of `sep`. -/
def splitCharList (sep : Char) : List Char → List Char → List (List Char)
  | [], acc => [acc.reverse]
  | c :: cs, acc =>
    if c == sep then acc.reverse :: splitCharList sep cs []
    else splitCharList sep cs (c :: acc)

/-- Python `s.split(sep)` for a one-character separator. -/
def strSplitChar (sep : Char) (s : String) : List String :=
  (splitCharList sep s.data []).map (fun cs => ⟨cs⟩)

/-- Lexicographic comparison on characters (Python `<=` on strings). -/
def charListLE : List Char → List Char → Bool
  | [], _ => true
  | _ :: _, [] => false
  | a :: as, b :: bs =>
    if a < b then true else if b < a then false else charListLE as bs

/-- Python `a <= b` on strings. -/
def strLE (a b : String) : Bool := charListLE a.data b.data

/-- Occurrence of `pat` inside `s` at some offset (character lists). -/
def listHasSub (s pat : List Char) : Bool :=
  (List.range (s.length + 1)).any (fun i => ((s.drop i).take pat.length) == pat)

/-- Python substring test `pat in s`. -/
def strContainsSub (s pat : String) : Bool :=
  listHasSub s.data pat.data

/-! ## Database cell values -/

/-- A SQLite cell value as seen by the extractor. -/
inductive Value
  | null
  | int (n : Int)
  | str (s : String)
deriving DecidableEq, Repr

/-- Python truthiness of a cell value (`if ... and value:`). -/
def Value.truthy : Value → Bool
  | .null => false
  | .int n => n != 0
  | .str s => s != ""

/-! ## Key-file parsing (`extract_db_type`, `parse_keys`) -/

/-- A parsed database descriptor (an element of the list `parse_keys` returns). -/
structure KeyDesc where
  path : String
  key : String
  cipher_compatibility : Nat
  type : String
deriving DecidableEq, Repr

/-- `extract_db_type`: split the path on `/` and return the last non-empty
segment before the final one, or `unknown`. -/
def extract_db_type (filepath : String) : String :=
  let parts := strSplitChar (Char.ofNat 47) filepath
  match parts.dropLast.reverse.find? (fun p => p != "") with
  | some p => p
  | none => "unknown"

/-- The literal marker that begins a path line. -/
def pathMarker : String := "sqlcipher db path: " ++ sq

/-- The literal marker that begins a key line. -/
def keyMarker : String := "PRAGMA key = " ++ dq

/-- Model of `re.match(r"sqlcipher db path: @([^@]+)@", line)` (with `@`
standing for the single quote): anchored at the start, capture a non-empty
run of non-quote characters, then a closing quote; trailing text allowed. -/
def parsePathLine (line : String) : Option String :=
  if strStartsWith line pathMarker then
    let rest := line.drop pathMarker.length
    let body := strTakeWhile (fun c => c != squote) rest
    if body.length > 0 && strStartsWith (rest.drop body.length) sq then some body
    else none
  else none

/-- Model of `re.match` for the key line `PRAGMA key = "([^"]+)"`. -/
def parseKeyLine (line : String) : Option String :=
  if strStartsWith line keyMarker then
    let rest := line.drop keyMarker.length
    let body := strTakeWhile (fun c => c != dquote) rest
    if body.length > 0 && strStartsWith (rest.drop body.length) dq then some body
    else none
  else none

/-- One iteration of the `parse_keys` loop: state is the pending
`current_path` (empty string means none) and the accumulated descriptors. -/
def procLine (st : String × List KeyDesc) (rawLine : String) : String × List KeyDesc :=
  let line := pyStrip rawLine
  if line = "" then st
  else
    match parsePathLine line with
    | some p => (p, st.2)
    | none =>
      match parseKeyLine line with
      | some k =>
        if st.1 != "" then
          ("", st.2 ++ [⟨st.1, k, 3, extract_db_type st.1⟩])
        else st
      | none => st

/-- `parse_keys` on an already-split line list. -/
def parseKeysLines (lines : List String) : List KeyDesc :=
  (lines.foldl procLine ("", [])).2

/-- `parse_keys(content)`: split on newlines and run the line loop. -/
def parse_keys (content : String) : List KeyDesc :=
  parseKeysLines (strSplitChar (Char.ofNat 10) content)

/-- Build a well-formed path line for a given path payload. -/
def mkPathLine (p : String) : String := pathMarker ++ p ++ sq

/-- Build a well-formed key line for a given key payload. -/
def mkKeyLine (k : String) : String := keyMarker ++ k ++ dq

/-! ## Chat-table discovery (`find_chat_tables`) -/

/-- Model of `re.match(r"^chat\d+$", n)`: the literal `chat` followed by
one or more digits and nothing else. -/
def matchesChatDigits (n : String) : Bool :=
  strStartsWith n "chat" && (n.drop 4).length > 0 && strAll Char.isDigit (n.drop 4)

/-- The per-table filter from the loop body of `find_chat_tables`. -/
def isChatTableName (table : String) : Bool :=
  let n := pyLower table
  strStartsWith n "chat_" ||
  n == "chat" ||
  matchesChatDigits n ||
  strStartsWith n "chatroom_" ||
  strStartsWith n "message_" ||
  (strContainsSub n "chat" && strContainsSub n "room")

/-- Sort key of `find_chat_tables`: `(not name.lower().startswith("chat_"),
name.lower())`, i.e. `chat_`-prefixed tables first, then lexicographic. -/
def chatKeyLE (a b : String) : Bool :=
  let ka := !(strStartsWith (pyLower a) "chat_")
  let kb := !(strStartsWith (pyLower b) "chat_")
  (!ka && kb) || (ka == kb && strLE (pyLower a) (pyLower b))

/-- Stable insertion of `x` after all already-placed entries with key `≤ x`
(so that equal keys keep their original relative order, matching the stable
Python sort). -/
def insertChat (x : String) : List String → List String
  | [] => [x]
  | y :: ys => if chatKeyLE y x then y :: insertChat x ys else x :: y :: ys

/-- Stable insertion sort by `chatKeyLE`. -/
def sortChat (l : List String) : List String :=
  l.foldl (fun acc x => insertChat x acc) []

/-- `find_chat_tables`: keep names matching the chat patterns, sorted with
`chat_`-prefixed names first. -/
def find_chat_tables (tables : List String) : List String :=
  sortChat (tables.filter isChatTableName)

/-! ## Table validation (`validate_chat_table`) -/

/-- `validate_chat_table`, as a pure function of the table metadata: the
raw column names from `PRAGMA table_info` and the `COUNT(*)` result.
Returns the validity flag together with the lowercased column list. -/
def validate_chat_table (rawColumns : List String) (rowCount : Nat) :
    Bool × List String :=
  let columns := rawColumns.map pyLower
  if rowCount == 0 then (false, columns)
  else
    let has_msg_id := ["meslocalid", "messvrid", "localid"].any
      (fun c => columns.any (fun col => col == c))
    let has_time := columns.any (fun col => strContainsSub col "time")
    let has_content := columns.any (fun col =>
      ["content", "message", "msg"].any (fun k => strContainsSub col k))
    (has_msg_id || has_time || has_content, columns)

/-! ## Timestamp conversion (`_convert_timestamp`) -/

/-- Civil date-time fields. -/
structure DateTime where
  year : Nat
  month : Nat
  day : Nat
  hour : Nat
  minute : Nat
  second : Nat
deriving DecidableEq, Repr

/-- Days-to-civil-date conversion (proleptic Gregorian, era-based),
for a non-negative count of days since 1970-01-01. -/
def civilFromDays (days : Nat) : Nat × Nat × Nat :=
  let z := days + 719468
  let era := z / 146097
  let doe := z % 146097
  let yoe := (doe - doe / 1460 + doe / 36524 - doe / 146096) / 365
  let y := yoe + era * 400
  let doy := doe - (365 * yoe + yoe / 4 - yoe / 100)
  let mp := (5 * doy + 2) / 153
  let d := doy - (153 * mp + 2) / 5 + 1
  let m := if mp < 10 then mp + 3 else mp - 9
  (if m ≤ 2 then y + 1 else y, m, d)

/-- A non-negative second-epoch instant as civil UTC date-time. -/
def civilFromEpoch (n : Nat) : DateTime :=
  let (y, m, d) := civilFromDays (n / 86400)
  let secs := n % 86400
  ⟨y, m, d, secs / 3600, secs % 3600 / 60, secs % 60⟩

/-- Zero-pad a number to two digits. -/
def pad2 (n : Nat) : String :=
  if n < 10 then "0" ++ toString n else toString n

/-- Zero-pad a number to four digits. -/
def pad4 (n : Nat) : String :=
  if n < 10 then "000" ++ toString n
  else if n < 100 then "00" ++ toString n
  else if n < 1000 then "0" ++ toString n
  else toString n

/-- `datetime.isoformat()` for a whole-second date-time. -/
def renderDateTime (dt : DateTime) : String :=
  pad4 dt.year ++ "-" ++ pad2 dt.month ++ "-" ++ pad2 dt.day ++ "T" ++
  pad2 dt.hour ++ ":" ++ pad2 dt.minute ++ ":" ++ pad2 dt.second

/-- `datetime.fromtimestamp(n).isoformat()` for an integer epoch, modelled
at UTC: CPython raises (and the source catches, yielding `None`) when the
instant falls outside years 1..9999. -/
def epochToISOString (n : Int) : Option String :=
  if n < 0 then none
  else
    let dt := civilFromEpoch n.toNat
    if dt.year ≥ 1 && dt.year ≤ 9999 then some (renderDateTime dt) else none

/-- Number of days in a month of a given year. -/
def daysInMonth (y m : Nat) : Nat :=
  if m == 2 then
    if y % 4 == 0 && (y % 100 != 0 || y % 400 == 0) then 29 else 28
  else if m == 4 || m == 6 || m == 9 || m == 11 then 30
  else 31

/-- Check that a character list is all digits of the given length. -/
def digitsOfLen (cs : List Char) (n : Nat) : Bool :=
  cs.length == n && cs.all Char.isDigit

/-- Numeric value of a digit list (most significant first). -/
def digitsToNat (cs : List Char) : Nat :=
  cs.foldl (fun acc c => acc * 10 + (c.toNat - 48)) 0

/-- Model of `datetime.fromisoformat`, restricted to the two shapes the
extractor can meet: `YYYY-MM-DD` and `YYYY-MM-DDTHH:MM:SS` with in-range
fields. -/
def parseISODateTime (s : String) : Option DateTime :=
  let cs := s.toList
  let parseDate (ds : List Char) : Option (Nat × Nat × Nat) :=
    match ds with
    | [y1, y2, y3, y4, h1, m1, m2, h2, d1, d2] =>
      if digitsOfLen [y1, y2, y3, y4] 4 && h1 == '-' && digitsOfLen [m1, m2] 2 &&
         h2 == '-' && digitsOfLen [d1, d2] 2 then
        let y := digitsToNat [y1, y2, y3, y4]
        let mo := digitsToNat [m1, m2]
        let d := digitsToNat [d1, d2]
        if 1 ≤ y && 1 ≤ mo && mo ≤ 12 && 1 ≤ d && d ≤ daysInMonth y mo then
          some (y, mo, d)
        else none
      else none
    | _ => none
  if cs.length == 10 then
    (parseDate cs).map (fun (p : Nat × Nat × Nat) => ⟨p.1, p.2.1, p.2.2, 0, 0, 0⟩)
  else if cs.length == 19 then
    match parseDate (cs.take 10), cs.drop 10 with
    | some p, [t, hh1, hh2, c1, mi1, mi2, c2, ss1, ss2] =>
      if t == 'T' && digitsOfLen [hh1, hh2] 2 && c1 == ':' &&
         digitsOfLen [mi1, mi2] 2 && c2 == ':' && digitsOfLen [ss1, ss2] 2 then
        let hh := digitsToNat [hh1, hh2]
        let mi := digitsToNat [mi1, mi2]
        let ss := digitsToNat [ss1, ss2]
        if hh ≤ 23 && mi ≤ 59 && ss ≤ 59 then some ⟨p.1, p.2.1, p.2.2, hh, mi, ss⟩
        else none
      else none
    | _, _ => none
  else none

/-- `_convert_timestamp` on the numeric branch (integer model; the
sub-second remainder of the millisecond division is not modelled). -/
def convertTimestampNum (n : Int) : Option String :=
  if n > 10 ^ 12 then epochToISOString (n / 1000)
  else if n > 10 ^ 9 then epochToISOString n
  else none

/-- `_convert_timestamp`: numeric values via epoch heuristics, strings via
ISO parsing with pass-through on failure, everything else `None`. -/
def convert_timestamp : Value → Option String
  | .int n => convertTimestampNum n
  | .str s =>
    match parseISODateTime s with
    | some dt => some (renderDateTime dt)
    | none => some s
  | .null => none

/-! ## Column resolution and record extraction (`_find_column`,
`extract_chat_data`) -/

/-- `_find_column`: first candidate fragment that occurs (case-insensitive)
as a substring of some column, scanning columns in order; returns that
column. -/
def find_column (columns : List String) (candidates : List String) : Option String :=
  candidates.findSome? (fun cand =>
    columns.find? (fun col => strContainsSub (pyLower col) (pyLower cand)))

/-- The role columns computed at the top of `extract_chat_data`
(`status_col` and `source_col` are computed by the source but never used
in the field mapping; they are kept for fidelity). -/
structure Roles where
  sender : Option String
  time : Option String
  content : Option String
  msgid : Option String
  type : Option String
  status : Option String
  source : Option String
deriving DecidableEq, Repr

/-- The seven `_find_column` calls of `extract_chat_data`. -/
def extractRoles (columns : List String) : Roles where
  sender := find_column columns ["meslocalid", "messvrid", "localid"]
  time := find_column columns ["msgcreatetime", "createtime", "timestamp", "time"]
  content := find_column columns ["msgcontent", "content", "message", "msg"]
  msgid := find_column columns ["meslocalid", "messvrid", "msgid", "id", "localid"]
  type := find_column columns ["messagetype", "msgtype", "type"]
  status := find_column columns ["msgstatus", "status"]
  source := find_column columns ["msgsource", "source"]

/-- The `select_fields` list: resolved role columns in declaration order
(`msgid` appended even when it duplicates an earlier entry, as in the
source), then every other column except `rowid` not already selected. -/
def buildSelectFields (columns : List String) : List String :=
  let r := extractRoles columns
  let base := r.sender.toList ++ r.time.toList ++ r.content.toList ++
    r.msgid.toList ++ r.type.toList
  columns.foldl
    (fun sf col => if sf.contains col || col == "rowid" then sf else sf ++ [col])
    base

/-- A message record: a Python dict modelled as an insertion-ordered
association list. -/
abbrev Msg := List (String × Value)

/-- Python dict assignment: overwrite in place, else append. -/
def setField (m : Msg) (k : String) (v : Value) : Msg :=
  if m.any (fun p => p.1 == k) then
    m.map (fun p => if p.1 == k then (k, v) else p)
  else m ++ [(k, v)]

/-- Python dict lookup returning `None` for a missing key. -/
def getField (m : Msg) (k : String) : Option Value :=
  (m.find? (fun p => p.1 == k)).map (fun p => p.2)

/-- A `None`-able string as a cell value (`message["timestamp"]` stores
the `_convert_timestamp` result, which may be `None`). -/
def optStr : Option String → Value
  | some s => .str s
  | none => .null

/-- The per-field branch chain in the row loop of `extract_chat_data`. -/
def applyField (roles : Roles) (m : Msg) (field : String) (value : Value) : Msg :=
  if roles.time == some field && value.truthy then
    setField (setField m "timestamp" (optStr (convert_timestamp value)))
      "timestamp_raw" value
  else if roles.sender == some field then setField m "sender" value
  else if roles.content == some field then setField m "content" value
  else if roles.msgid == some field then setField m "message_id" value
  else if roles.type == some field then setField m "message_type" value
  else setField m field value

/-- Evaluation of the `SELECT` list against one stored row: `columns` is
the (lowercased) column list the row is aligned with, and each selected
field reads the cell of its column. -/
def selectRow (columns : List String) (row : List Value) (fields : List String) :
    List Value :=
  fields.map (fun f =>
    match columns.findIdx? (fun c => c == f) with
    | some i => row.getD i .null
    | none => .null)

/-- The four constant fields every record starts from. -/
def initMsg (dbPath dbType tableName extractedAt : String) : Msg :=
  [("database_path", .str dbPath), ("database_type", .str dbType),
   ("table_name", .str tableName), ("extracted_at", .str extractedAt)]

/-- Build one record from one row. -/
def buildMessage (dbPath dbType tableName extractedAt : String) (roles : Roles)
    (fields : List String) (vals : List Value) : Msg :=
  (fields.zip vals).foldl
    (fun m p => applyField roles m p.1 p.2)
    (initMsg dbPath dbType tableName extractedAt)

/-- `extract_chat_data`: resolve roles, build the `SELECT` list, and map
every row (the `LIMIT/OFFSET` pagination enumerates all rows in order) to
a record. `columns` is the lowercased column list from
`validate_chat_table`; `rows` are aligned with it. -/
def extract_chat_data (dbPath dbType extractedAt tableName : String)
    (columns : List String) (rows : List (List Value)) : List Msg :=
  let roles := extractRoles columns
  let sf := buildSelectFields columns
  if sf.isEmpty then []
  else rows.map (fun row =>
    buildMessage dbPath dbType tableName extractedAt roles sf
      (selectRow columns row sf))

/-! ## Connecting (`connect_database`) -/

/-- The candidate `PRAGMA key` formats tried by `connect_database`. -/
def keyFormats (key : String) : List String :=
  if strStartsWith key ("x" ++ sq) && strEndsWith key sq then
    let hexKey := (key.drop 2).dropRight 1
    ["x" ++ sq ++ hexKey ++ sq, key, dq ++ key ++ dq, hexKey]
  else
    [key, dq ++ key ++ dq, "x" ++ sq ++ key ++ sq]

/-- The retry loop of `connect_database` in the case where the low-level
open call succeeds: each attempt opens the database, sets the key and
compatibility pragmas and runs the `sqlite_master` probe; `probe f` tells
whether the attempt with key format `f` succeeds. The first success is
returned; a failed attempt closes the handle and continues. The case
where the open call itself raises — on which the handler's reference to
the then-unbound `conn` local raises `UnboundLocalError` — is modelled
separately by `connectAttempts` and `connect_database_checked` below. -/
def tryKeyFormats (probe : String → Bool) : List String → Option String
  | [] => none
  | f :: rest => if probe f then some f else tryKeyFormats probe rest

/-- `connect_database`: `some f` is a live connection obtained with key
format `f`; `none` models the `return None` after all formats fail. -/
def connect_database (probe : String → Bool) (key : String) : Option String :=
  tryKeyFormats probe (keyFormats key)

/-! ## Orchestration (`extract_all_chats`, `load_keys`, `run`, `main`) -/

/-- One stored table: its name, raw column names (`PRAGMA table_info`
order) and rows aligned with those columns. `metaBroken` models a table
whose metadata queries raise, which `validate_chat_table` catches,
returning `(False, [])`. -/
structure Table where
  name : String
  columns : List String
  rows : List (List Value)
  metaBroken : Bool
deriving DecidableEq, Repr

/-- The contents behind one database path: which key formats decrypt it,
and its tables. -/
structure DbContent where
  probe : String → Bool
  tables : List Table

/-- The external world: database contents per path, and the clock value
used for the `extracted_at` stamps. -/
structure World where
  content : String → DbContent
  now : String

/-- `validate_chat_table` including the exception path: a broken table
yields `(False, [])`. -/
def validateTable (t : Table) : Bool × List String :=
  if t.metaBroken then (false, [])
  else validate_chat_table t.columns t.rows.length

/-- Process one chat-table name inside a connected database: look the
table up, validate it, and extract when valid (the inner loop body of
`extract_all_chats`). -/
def processTable (w : World) (d : KeyDesc) (tables : List Table)
    (tableName : String) : List Msg :=
  match tables.find? (fun t => t.name == tableName) with
  | none => []
  | some t =>
    let vc := validateTable t
    if vc.1 then extract_chat_data d.path d.type w.now tableName vc.2 t.rows
    else []

/-- The loop over the discovered chat-table names of one database. -/
def processTablesLoop (w : World) (d : KeyDesc) (tables : List Table)
    (names : List String) : List Msg :=
  names.foldl (fun acc tn => acc ++ processTable w d tables tn) []

/-- Process one database: connect (skip on failure), list tables, filter
and sort chat tables, then extract each valid one in order. -/
def processDatabase (w : World) (d : KeyDesc) : List Msg :=
  match connect_database (w.content d.path).probe d.key with
  | none => []
  | some _ =>
    let tables := (w.content d.path).tables
    processTablesLoop w d tables (find_chat_tables (tables.map (fun t => t.name)))

/-- The accumulation loop over an already-ordered database list. -/
def processList (w : World) (dbs : List KeyDesc) : List Msg :=
  dbs.foldl (fun acc d => acc ++ processDatabase w d) []

/-- `Message`-typed databases first, preserving list order inside each
group. -/
def processOrder (dbs : List KeyDesc) : List KeyDesc :=
  dbs.filter (fun d => d.type == "Message") ++
  dbs.filter (fun d => !(d.type == "Message"))

/-- `extract_all_chats`: process every database in priority order,
appending each one's records to the aggregate. -/
def extract_all_chats (w : World) (dbs : List KeyDesc) : List Msg :=
  processList w (processOrder dbs)

/-- The extractor environment as `run` sees it: the keys file contents
(`none` = the file cannot be read, so `open` raises), and which database
paths exist on the filesystem. -/
structure ExtractorEnv where
  keysContent : Option String
  fsExists : String → Bool
  world : World

/-- `load_keys`: parse the keys text and keep only descriptors whose
database file exists; an unreadable keys file logs and re-raises
(modelled as `Except.error`). -/
def load_keys (env : ExtractorEnv) : Except Unit (List KeyDesc) :=
  match env.keysContent with
  | none => .error ()
  | some c => .ok ((parse_keys c).filter (fun d => env.fsExists d.path))

/-- The observable outcome of a completed `run`. -/
structure RunOutcome where
  loggedNoDatabasesError : Bool
  loggedNoRecordsWarning : Bool
  savedOutput : Bool
deriving DecidableEq, Repr

/-- `run`: load keys (propagating the unreadable-file exception); with no
usable database, log an error and return; with no extracted record, log a
warning and return; otherwise save the output. -/
def run (env : ExtractorEnv) : Except Unit RunOutcome :=
  match load_keys env with
  | .error e => .error e
  | .ok databases =>
    if databases.isEmpty then .ok ⟨true, false, false⟩
    else
      let chat_data := extract_all_chats env.world databases
      if chat_data.isEmpty then .ok ⟨false, true, false⟩
      else .ok ⟨false, false, true⟩

/-- The `total_databases` entry `save_to_json` writes: the length of the
loaded database list. -/
def totalDatabasesMetadata (databases : List KeyDesc) : Nat :=
  databases.length

/-- The process exit code produced by `main` around `run`: an exception
exits 1, a normal return exits 0. (The model treats the final
`save_to_json` write as succeeding; a write failure would re-raise as
well, a path outside every claim here.) -/
def mainExitCode (env : ExtractorEnv) : Nat :=
  match run env with
  | .error _ => 1
  | .ok _ => 0

/-! ## The open-failure path of `connect_database` (claim C8)

The loop body of `connect_database` binds `conn` inside the `try`; its
`except` handler runs `if conn: conn.close()` and continues with the next
key format. When the low-level `sqlite.connect(path)` call itself raises
on the very first attempt — for example when the path is an existing
directory, which passes the `os.path.exists` filter of `load_keys` — the
local `conn` is still unbound and the handler itself raises
`UnboundLocalError`. Neither `extract_all_chats` nor `run` catches it, so
it aborts the whole run. The definitions below make that step explicit. -/

/-- One pass over the key formats with the open step explicit.
`openRaises` says whether `sqlite.connect(path)` raises (a property of the
path alone); `connBound` tracks whether the local `conn` was bound by an
earlier attempt. On an exception the handler evaluates `if conn:`: with
`conn` bound it closes the stale handle and continues, with `conn` unbound
it raises `UnboundLocalError`, modelled as `Except.error`. -/
def connectAttempts (openRaises : Bool) (probe : String → Bool) :
    List String → Bool → Except Unit (Option String)
  | [], _ => .ok none
  | f :: rest, connBound =>
    if openRaises then
      if connBound then connectAttempts openRaises probe rest connBound
      else .error ()
    else if probe f then .ok (some f)
    else connectAttempts openRaises probe rest true

/-- `connect_database` with the open-failure path kept: when the open call
raises for this path the first attempt dies with `UnboundLocalError`;
otherwise the behaviour is exactly `connect_database`. -/
def connect_database_checked (openRaises : Bool) (probe : String → Bool)
    (key : String) : Except Unit (Option String) :=
  connectAttempts openRaises probe (keyFormats key) false

/-- The database loop of `extract_all_chats` over an already-ordered list,
with the open-failure path propagated: `extract_all_chats` wraps no
handler around `connect_database`, so the `UnboundLocalError` aborts the
whole loop and the accumulated records never reach the output. -/
def processListChecked (w : World) (openRaises : String → Bool) :
    List KeyDesc → List Msg → Except Unit (List Msg)
  | [], acc => .ok acc
  | d :: rest, acc =>
    match connect_database_checked (openRaises d.path) (w.content d.path).probe d.key with
    | .error e => .error e
    | .ok none => processListChecked w openRaises rest acc
    | .ok (some _) =>
      processListChecked w openRaises rest
        (acc ++ processTablesLoop w d (w.content d.path).tables
          (find_chat_tables ((w.content d.path).tables.map (fun t => t.name))))

/-- A descriptor whose path is an existing directory: it passes the
`os.path.exists` filter of `load_keys`, but the open call raises on it. -/
def c8DirDb : KeyDesc := ⟨"/data/Message", "K1", 3, "Message"⟩

/-- A healthy descriptor processed after the directory one. -/
def c8GoodDb : KeyDesc := ⟨"/data/Message/msg.db", "K2", 3, "Message"⟩

/-- A world where the healthy database decrypts under every key format and
holds one `Chat_1` row. -/
def c8World : World :=
  ⟨fun p =>
    if p == "/data/Message/msg.db" then
      ⟨fun _ => true,
       [⟨"Chat_1", ["MesLocalID", "MsgContent"], [[.int 7, .str "hi"]], false⟩]⟩
    else ⟨fun _ => false, []⟩,
   "T0"⟩

/-! ## Spec-side definitions used to compare against claim wording -/

/-- Encoding list as the C7 claim words it: the raw hex-prefixed form as
given, the form stripped of any wrapping markers, a quoted form, and a
bare-hex form. -/
def claimedKeyFormats (key : String) : List String :=
  let stripped :=
    if strStartsWith key ("x" ++ sq) && strEndsWith key sq then (key.drop 2).dropRight 1
    else key
  [key, stripped, dq ++ key ++ dq, stripped]

/-! ## Shared helper lemmas -/

/-- The attempt loop of `connect_database` returns the first succeeding
format. -/
theorem tryKeyFormats_eq_find (probe : String → Bool) :
    ∀ l : List String, tryKeyFormats probe l = l.find? probe := by
  intro l
  induction l with
  | nil => rfl
  | cons f rest ih =>
    by_cases h : probe f = true
    · simp [tryKeyFormats, h, List.find?_cons_of_pos]
    · rw [Bool.not_eq_true] at h
      simp [tryKeyFormats, h, List.find?_cons_of_neg]
      exact ih

/-- The empty line matches neither line pattern. -/
theorem parsePathLine_empty : parsePathLine "" = none := by decide

/-- The empty line is not a key line. -/
theorem parseKeyLine_empty : parseKeyLine "" = none := by decide

/-- A key payload captured by the key-line pattern is non-empty. -/
theorem parseKeyLine_ne (l k : String) (h : parseKeyLine l = some k) : k ≠ "" := by
  intro he
  subst he
  simp only [parseKeyLine] at h
  split at h
  · split at h
    next hcond =>
      injection h with h2
      rw [h2] at hcond
      simp at hcond
    next => cases h
  · cases h

/-- A loop step on a matching path line replaces the pending path and keeps
the accumulator. -/
theorem procLine_path (st : String × List KeyDesc) (l p : String)
    (h : parsePathLine (pyStrip l) = some p) : procLine st l = (p, st.2) := by
  have hne : ¬ (pyStrip l = "") := by
    intro he; rw [he, parsePathLine_empty] at h; cases h
  simp [procLine, hne, h]

/-- A loop step on a key line with a pending path emits a descriptor and
clears the pending path. -/
theorem procLine_key_consume (st : String × List KeyDesc) (l k : String)
    (hp : parsePathLine (pyStrip l) = none) (hk : parseKeyLine (pyStrip l) = some k)
    (hcur : st.1 ≠ "") :
    procLine st l = ("", st.2 ++ [⟨st.1, k, 3, extract_db_type st.1⟩]) := by
  have hne : ¬ (pyStrip l = "") := by
    intro he; rw [he, parseKeyLine_empty] at hk; cases hk
  have hcur2 : (st.1 != "") = true := by simpa using hcur
  simp [procLine, hne, hp, hk, hcur2]

/-- A loop step on a key line with no pending path does nothing. -/
theorem procLine_key_orphan (acc : List KeyDesc) (l k : String)
    (hp : parsePathLine (pyStrip l) = none) (hk : parseKeyLine (pyStrip l) = some k) :
    procLine ("", acc) l = ("", acc) := by
  by_cases hne : pyStrip l = ""
  · simp [procLine, hne]
  · simp [procLine, hne, hp, hk]

/-- A loop step on a line matching neither pattern does nothing. -/
theorem procLine_neutral (st : String × List KeyDesc) (l : String)
    (hp : parsePathLine (pyStrip l) = none) (hk : parseKeyLine (pyStrip l) = none) :
    procLine st l = st := by
  by_cases hne : pyStrip l = ""
  · simp [procLine, hne]
  · simp [procLine, hne, hp, hk]

/-- Every descriptor accumulated by the parsing loop has a non-empty path
and a non-empty key, provided the starting accumulator does. -/
theorem parseWfAux : ∀ (lines : List String) (st : String × List KeyDesc),
    (∀ d ∈ st.2, d.path ≠ "" ∧ d.key ≠ "") →
    ∀ d ∈ (lines.foldl procLine st).2, d.path ≠ "" ∧ d.key ≠ ""
  | [], _, hst => by simpa using hst
  | l :: ls, st, hst => by
    rw [List.foldl_cons]
    apply parseWfAux ls (procLine st l)
    cases hp : parsePathLine (pyStrip l) with
    | some p => rw [procLine_path st l p hp]; exact hst
    | none =>
      cases hk : parseKeyLine (pyStrip l) with
      | none => rw [procLine_neutral st l hp hk]; exact hst
      | some k =>
        by_cases hcur : st.1 = ""
        · have hpair : st = ("", st.2) := by
            have he := Prod.mk.eta (p := st)
            rw [hcur] at he
            exact he.symm
          rw [hpair, procLine_key_orphan st.2 l k hp hk]
          exact hst
        · rw [procLine_key_consume st l k hp hk hcur]
          intro d hd
          rcases List.mem_append.mp hd with hd | hd
          · exact hst d hd
          · rcases List.mem_singleton.mp hd with rfl
            exact ⟨hcur, parseKeyLine_ne _ _ hk⟩

/-- Claim C5: `parse_keys` returns only well-formed pairs; a path line
superseded by a later path line with no key line in between, or left
trailing with no key line at all, contributes zero descriptors, and a key
line with no pending (unconsumed) path line contributes zero descriptors;
lines matching neither pattern are ignored. -/
theorem c5_parse_keys :
    (∀ content : String,
      parse_keys content = parseKeysLines (strSplitChar (Char.ofNat 10) content)) ∧
    (∀ (lines : List String) (d : KeyDesc),
      d ∈ parseKeysLines lines → d.path ≠ "" ∧ d.key ≠ "") ∧
    (∀ (pre post : List String) (l l2 p p2 : String),
      parsePathLine (pyStrip l) = some p → parsePathLine (pyStrip l2) = some p2 →
      parseKeysLines (pre ++ l :: l2 :: post) = parseKeysLines (pre ++ l2 :: post)) ∧
    (∀ (pre : List String) (l p : String),
      parsePathLine (pyStrip l) = some p →
      parseKeysLines (pre ++ [l]) = parseKeysLines pre) ∧
    (∀ (pre post : List String) (l k : String),
      parsePathLine (pyStrip l) = none → parseKeyLine (pyStrip l) = some k →
      (pre.foldl procLine ("", [])).1 = "" →
      parseKeysLines (pre ++ l :: post) = parseKeysLines (pre ++ post)) ∧
    (∀ (st : String × List KeyDesc) (l : String),
      parsePathLine (pyStrip l) = none → parseKeyLine (pyStrip l) = none →
      procLine st l = st) := by
  refine ⟨fun _ => rfl, ?_, ?_, ?_, ?_, procLine_neutral⟩
  · intro lines d hd
    exact parseWfAux lines ("", []) (by simp) d hd
  · intro pre post l l2 p p2 hp hp2
    unfold parseKeysLines
    rw [List.foldl_append, List.foldl_append]
    congr 1
    simp only [List.foldl_cons]
    rw [procLine_path _ l p hp, procLine_path _ l2 p2 hp2, procLine_path _ l2 p2 hp2]
  · intro pre l p hp
    unfold parseKeysLines
    rw [List.foldl_append]
    simp only [List.foldl_cons, List.foldl_nil]
    rw [procLine_path _ l p hp]
  · intro pre post l k hp hk hpre
    unfold parseKeysLines
    rw [List.foldl_append, List.foldl_append]
    congr 1
    simp only [List.foldl_cons]
    have hpair : pre.foldl procLine ("", []) = ("", (pre.foldl procLine ("", [])).2) := by
      have he := Prod.mk.eta (p := pre.foldl procLine ("", []))
      rw [hpre] at he
      exact he.symm
    rw [hpair, procLine_key_orphan _ l k hp hk]

/-- Claim C5, witness: the main theorem applied to a concrete two-path
record, to a trailing-path text, and to a leading orphan key line. -/
theorem c5_witness :
    parseKeysLines [mkPathLine "/a", mkPathLine "/b/Message/x.db", mkKeyLine "K"] =
      parseKeysLines [mkPathLine "/b/Message/x.db", mkKeyLine "K"] ∧
    parseKeysLines [mkPathLine "/b/Message/x.db", mkKeyLine "K", mkPathLine "/tail"] =
      parseKeysLines [mkPathLine "/b/Message/x.db", mkKeyLine "K"] ∧
    parseKeysLines (mkKeyLine "ORPHAN" :: [mkPathLine "/b/Message/x.db", mkKeyLine "K"]) =
      parseKeysLines [mkPathLine "/b/Message/x.db", mkKeyLine "K"] ∧
    ("/b/Message/x.db" ≠ "" ∧ "K" ≠ "") :=
  ⟨c5_parse_keys.2.2.1 [] [mkKeyLine "K"] (mkPathLine "/a")
      (mkPathLine "/b/Message/x.db") "/a" "/b/Message/x.db" (by decide) (by decide),
   c5_parse_keys.2.2.2.1 [mkPathLine "/b/Message/x.db", mkKeyLine "K"]
      (mkPathLine "/tail") "/tail" (by decide),
   c5_parse_keys.2.2.2.2.1 [] [mkPathLine "/b/Message/x.db", mkKeyLine "K"]
      (mkKeyLine "ORPHAN") "ORPHAN" (by decide) (by decide) (by decide),
   c5_parse_keys.2.1 [mkPathLine "/b/Message/x.db", mkKeyLine "K"]
      ⟨"/b/Message/x.db", "K", 3, "Message"⟩ (by decide)⟩

/-- Reading an association list starting at a cons cell. -/
theorem getField_cons (q : String × Value) (m : Msg) (k2 : String) :
    getField (q :: m) k2 = if (q.1 == k2) = true then some q.2 else getField m k2 := by
  by_cases h : (q.1 == k2) = true
  · simp [getField, List.find?_cons_of_pos _ h, h]
  · simp [getField, List.find?_cons_of_neg _ h, h]

/-- Reading an appended association list. -/
theorem getField_append (m1 m2 : Msg) (k : String) :
    getField (m1 ++ m2) k = (getField m1 k).or (getField m2 k) := by
  unfold getField
  rw [List.find?_append]
  cases List.find? (fun p => p.1 == k) m1 <;> simp

/-- Overwriting key `k` in place does not change reads at other keys. -/
theorem getField_map_set_ne :
    ∀ (m : Msg) (k k2 : String) (v : Value), k2 ≠ k →
      getField (m.map (fun p => if p.1 == k then (k, v) else p)) k2 = getField m k2
  | [], _, _, _, _ => rfl
  | p :: m, k, k2, v, hne => by
    rw [List.map_cons]
    by_cases hp : (p.1 == k) = true
    · rw [if_pos hp, getField_cons, getField_cons]
      have hpk : p.1 = k := beq_iff_eq.mp hp
      have h1 : (k == k2) = false := by
        simp only [beq_eq_false_iff_ne]; exact fun h => hne h.symm
      have h2 : (p.1 == k2) = false := by rw [hpk]; exact h1
      simp only [h1, h2, Bool.false_eq_true, if_false]
      exact getField_map_set_ne m k k2 v hne
    · rw [if_neg hp, getField_cons, getField_cons]
      by_cases hq : (p.1 == k2) = true
      · simp only [hq, if_true]
      · simp only [hq, Bool.false_eq_true, if_false]
        exact getField_map_set_ne m k k2 v hne

/-- Overwriting key `k` in place makes reads at `k` see the new value,
provided the key occurs. -/
theorem getField_map_set_self :
    ∀ (m : Msg) (k : String) (v : Value),
      m.any (fun p => p.1 == k) = true →
      getField (m.map (fun p => if p.1 == k then (k, v) else p)) k = some v
  | [], _, _, h => by simp at h
  | p :: m, k, v, h => by
    rw [List.map_cons]
    by_cases hp : (p.1 == k) = true
    · rw [if_pos hp, getField_cons]
      simp
    · rw [if_neg hp, getField_cons]
      simp only [hp, Bool.false_eq_true, if_false]
      apply getField_map_set_self
      rcases (List.any_eq_true ..).mp h with ⟨q, hq, hqk⟩
      rcases List.mem_cons.mp hq with rfl | hq
      · exact absurd hqk hp
      · exact (List.any_eq_true ..).mpr ⟨q, hq, hqk⟩

/-- Characterization of the dict write: a read at `k2` after writing `k`
sees the written value iff the keys agree, the old value otherwise. -/
theorem getField_setField (m : Msg) (k k2 : String) (v : Value) :
    getField (setField m k v) k2 = if k2 = k then some v else getField m k2 := by
  unfold setField
  by_cases hmem : (m.any (fun p => p.1 == k)) = true
  · rw [if_pos hmem]
    by_cases hk : k2 = k
    · subst hk; rw [if_pos rfl]; exact getField_map_set_self m k2 v hmem
    · rw [if_neg hk]; exact getField_map_set_ne m k k2 v hk
  · rw [if_neg hmem, getField_append]
    have hnone : getField m k = none := by
      unfold getField
      rw [List.find?_eq_none.mpr]
      · rfl
      · intro x hx
        rw [Bool.not_eq_true] at hmem
        exact (List.any_eq_false.mp hmem) x hx
    by_cases hk : k2 = k
    · subst hk
      rw [if_pos rfl, hnone, getField_cons]
      simp
    · rw [if_neg hk, getField_cons]
      have h1 : (k == k2) = false := by
        simp only [beq_eq_false_iff_ne]; exact fun h => hk h.symm
      simp [h1, getField]

/-- A key present after a write was present before, or is the written
key. -/
theorem getField_setField_isSome (m : Msg) (k k2 : String) (v : Value)
    (h : (getField (setField m k v) k2).isSome = true) :
    (getField m k2).isSome = true ∨ k2 = k := by
  rw [getField_setField] at h
  by_cases hk : k2 = k
  · exact .inr hk
  · rw [if_neg hk] at h; exact .inl h

/-- A write never removes a present key. -/
theorem getField_setField_mono (m : Msg) (k k2 : String) (v : Value)
    (h : (getField m k2).isSome = true) :
    (getField (setField m k v) k2).isSome = true := by
  rw [getField_setField]
  by_cases hk : k2 = k
  · rw [if_pos hk]; rfl
  · rwa [if_neg hk]

/-- A key present after one field dispatch step was present before, or was
introduced by one of the dispatch branches. -/
theorem applyField_isSome (roles : Roles) (m : Msg) (f k : String) (v : Value)
    (h : (getField (applyField roles m f v) k).isSome = true) :
    (getField m k).isSome = true ∨
    ((k = "timestamp" ∨ k = "timestamp_raw") ∧ roles.time = some f) ∨
    (k = "sender" ∧ roles.sender = some f) ∨
    (k = "content" ∧ roles.content = some f) ∨
    (k = "message_id" ∧ roles.msgid = some f) ∨
    (k = "message_type" ∧ roles.type = some f) ∨
    k = f := by
  unfold applyField at h
  split_ifs at h with h1 h2 h3 h4 h5
  · have ht : roles.time = some f := beq_iff_eq.mp ((Bool.and_eq_true ..).mp h1).1
    rcases getField_setField_isSome _ _ _ _ h with h | h
    · rcases getField_setField_isSome _ _ _ _ h with h | h
      · exact .inl h
      · exact .inr (.inl ⟨.inl h, ht⟩)
    · exact .inr (.inl ⟨.inr h, ht⟩)
  · rcases getField_setField_isSome _ _ _ _ h with h | h
    · exact .inl h
    · exact .inr (.inr (.inl ⟨h, beq_iff_eq.mp h2⟩))
  · rcases getField_setField_isSome _ _ _ _ h with h | h
    · exact .inl h
    · exact .inr (.inr (.inr (.inl ⟨h, beq_iff_eq.mp h3⟩)))
  · rcases getField_setField_isSome _ _ _ _ h with h | h
    · exact .inl h
    · exact .inr (.inr (.inr (.inr (.inl ⟨h, beq_iff_eq.mp h4⟩))))
  · rcases getField_setField_isSome _ _ _ _ h with h | h
    · exact .inl h
    · exact .inr (.inr (.inr (.inr (.inr (.inl ⟨h, beq_iff_eq.mp h5⟩)))))
  · rcases getField_setField_isSome _ _ _ _ h with h | h
    · exact .inl h
    · exact .inr (.inr (.inr (.inr (.inr (.inr h)))))

/-- Lifting `applyField_isSome` through the field loop. -/
theorem foldFields_isSome (roles : Roles) :
    ∀ (ps : List (String × Value)) (m0 : Msg) (k : String),
      (getField (ps.foldl (fun m p => applyField roles m p.1 p.2) m0) k).isSome = true →
      (getField m0 k).isSome = true ∨
      ∃ p ∈ ps,
        ((k = "timestamp" ∨ k = "timestamp_raw") ∧ roles.time = some p.1) ∨
        (k = "sender" ∧ roles.sender = some p.1) ∨
        (k = "content" ∧ roles.content = some p.1) ∨
        (k = "message_id" ∧ roles.msgid = some p.1) ∨
        (k = "message_type" ∧ roles.type = some p.1) ∨
        k = p.1
  | [], _, k, h => .inl (by simpa using h)
  | p :: ps, m0, k, h => by
    rw [List.foldl_cons] at h
    rcases foldFields_isSome roles ps _ k h with h | ⟨q, hq, hcase⟩
    · rcases applyField_isSome roles m0 p.1 k p.2 h with h | hcase
      · exact .inl h
      · exact .inr ⟨p, List.mem_cons_self p ps, hcase⟩
    · exact .inr ⟨q, List.mem_cons_of_mem p hq, hcase⟩

/-- The field loop never removes a present key. -/
theorem foldFields_mono (roles : Roles) :
    ∀ (ps : List (String × Value)) (m0 : Msg) (k : String),
      (getField m0 k).isSome = true →
      (getField (ps.foldl (fun m p => applyField roles m p.1 p.2) m0) k).isSome = true
  | [], _, _, h => by simpa using h
  | p :: ps, m0, k, h => by
    rw [List.foldl_cons]
    apply foldFields_mono
    unfold applyField
    split_ifs <;>
      first
        | exact getField_setField_mono _ _ _ _ (getField_setField_mono _ _ _ _ h)
        | exact getField_setField_mono _ _ _ _ h

/-- The column `_find_column` returns is one of the table columns. -/
theorem find_column_mem :
    ∀ (cands columns : List String) (col : String),
      find_column columns cands = some col → col ∈ columns
  | [], _, _, h => by simp [find_column] at h
  | c :: cs, columns, col, h => by
    unfold find_column at h
    simp only [List.findSome?_cons] at h
    cases hf : columns.find? (fun col2 => strContainsSub (pyLower col2) (pyLower c)) with
    | some c2 =>
      rw [hf] at h
      simp only [Option.some.injEq] at h
      exact h ▸ List.mem_of_find?_eq_some hf
    | none =>
      rw [hf] at h
      exact find_column_mem cs columns col h

/-- Elements added by the passthrough loop of `buildSelectFields` come from
the column list. -/
theorem selectFold_mem :
    ∀ (cols acc : List String) (x : String),
      x ∈ cols.foldl
        (fun sf col => if sf.contains col || col == "rowid" then sf else sf ++ [col]) acc →
      x ∈ acc ∨ x ∈ cols
  | [], acc, x, h => .inl (by simpa using h)
  | c :: cs, acc, x, h => by
    rw [List.foldl_cons] at h
    rcases selectFold_mem cs _ x h with h | h
    · by_cases hc : (acc.contains c || c == "rowid") = true
      · rw [if_pos hc] at h; exact .inl h
      · rw [if_neg hc] at h
        rcases List.mem_append.mp h with h | h
        · exact .inl h
        · exact .inr (List.mem_singleton.mp h ▸ List.mem_cons_self c cs)
    · exact .inr (List.mem_cons_of_mem c h)

/-- Every selected field is one of the table columns. -/
theorem buildSelectFields_mem (columns : List String) (x : String)
    (h : x ∈ buildSelectFields columns) : x ∈ columns := by
  unfold buildSelectFields at h
  rcases selectFold_mem columns _ x h with h | h
  · simp only [extractRoles, List.mem_append, Option.mem_toList, Option.mem_def] at h
    rcases h with ((((h | h) | h) | h) | h) <;> exact find_column_mem _ _ _ h
  · exact h

/-- Origin of any key present in an extracted record: it was in the
constant initial block, or it was introduced for a select field by one of
the dispatch branches. -/
theorem extract_key_origin (dbPath dbType extractedAt tableName : String)
    (columns : List String) (rows : List (List Value)) (m : Msg) (k : String)
    (hm : m ∈ extract_chat_data dbPath dbType extractedAt tableName columns rows)
    (h : (getField m k).isSome = true) :
    (getField (initMsg dbPath dbType tableName extractedAt) k).isSome = true ∨
    ∃ f ∈ buildSelectFields columns,
      ((k = "timestamp" ∨ k = "timestamp_raw") ∧ (extractRoles columns).time = some f) ∨
      (k = "sender" ∧ (extractRoles columns).sender = some f) ∨
      (k = "content" ∧ (extractRoles columns).content = some f) ∨
      (k = "message_id" ∧ (extractRoles columns).msgid = some f) ∨
      (k = "message_type" ∧ (extractRoles columns).type = some f) ∨
      k = f := by
  simp only [extract_chat_data] at hm
  split at hm
  · cases hm
  · rcases List.mem_map.mp hm with ⟨row, _, rfl⟩
    unfold buildMessage at h
    rcases foldFields_isSome _ _ _ _ h with h | ⟨p, hp, hcase⟩
    · exact .inl h
    · exact .inr ⟨p.1,
        (List.of_mem_zip hp).1,
        hcase⟩

/-- The constant fields survive the whole field loop. -/
theorem extract_base_present (dbPath dbType extractedAt tableName : String)
    (columns : List String) (rows : List (List Value)) (m : Msg) (k : String)
    (hm : m ∈ extract_chat_data dbPath dbType extractedAt tableName columns rows)
    (h : (getField (initMsg dbPath dbType tableName extractedAt) k).isSome = true) :
    (getField m k).isSome = true := by
  simp only [extract_chat_data] at hm
  split at hm
  · cases hm
  · rcases List.mem_map.mp hm with ⟨row, _, rfl⟩
    exact foldFields_mono _ _ _ _ h

/-! ## Claim theorems -/

/-- The record `extract_chat_data` produces for one `Chat_100` row
`(meslocalid, msgcreatetime, msgcontent) = (a, b, c)` with truthy `b`: no
`message_id` field is emitted because the message-id column coincides with
the sender column and the sender branch of the field dispatch wins. -/
def c1Record (p ty now : String) (a b c : Value) : Msg :=
  [("database_path", .str p), ("database_type", .str ty),
   ("table_name", .str "Chat_100"), ("extracted_at", .str now),
   ("sender", a), ("timestamp", optStr (convert_timestamp b)),
   ("timestamp_raw", b), ("content", c)]

/-- Claim C1, counterexample: a `Chat_100` table with columns
`(MesLocalID, MsgCreateTime, MsgContent)` and three concrete rows yields
three records whose `sender` carries the `MesLocalID` value but which
contain NO `message_id` field at all — `sender_col` and `msgid_col` both
resolve to `meslocalid` and the sender branch of the field dispatch
consumes the value, so the claimed `message_id` mapping never happens. -/
theorem c1_counterexample :
    (extract_chat_data "/u/Message/msg.db" "Message" "T0" "Chat_100"
        ["meslocalid", "msgcreatetime", "msgcontent"]
        [[.int 1, .int 1700000000, .str "a"], [.int 2, .int 1700000001, .str "b"],
         [.int 3, .int 1700000002, .str "c"]]).length = 3 ∧
    getField ((extract_chat_data "/u/Message/msg.db" "Message" "T0" "Chat_100"
        ["meslocalid", "msgcreatetime", "msgcontent"]
        [[.int 1, .int 1700000000, .str "a"], [.int 2, .int 1700000001, .str "b"],
         [.int 3, .int 1700000002, .str "c"]]).getD 0 []) "message_id" = none ∧
    getField ((extract_chat_data "/u/Message/msg.db" "Message" "T0" "Chat_100"
        ["meslocalid", "msgcreatetime", "msgcontent"]
        [[.int 1, .int 1700000000, .str "a"], [.int 2, .int 1700000001, .str "b"],
         [.int 3, .int 1700000002, .str "c"]]).getD 0 []) "sender" = some (.int 1) := by
  decide

/-- Claim C1 (amended): for a `Chat_100` table with columns
`(MesLocalID, MsgCreateTime, MsgContent)` and exactly 3 rows whose
creation times are truthy, extraction yields exactly 3 records, each with
`sender` equal to the row's `MesLocalID` value, `timestamp` derived from
the row's `MsgCreateTime` value, `content` equal to the row's `MsgContent`
value, and no `message_id` field (the message-id column coincides with the
sender column and is consumed by the sender branch). -/
theorem c1_chat100_extraction :
    ∀ (p ty now : String) (a1 b1 c1 a2 b2 c2 a3 b3 c3 : Value),
      b1.truthy = true → b2.truthy = true → b3.truthy = true →
      isChatTableName "Chat_100" = true ∧
      validate_chat_table ["MesLocalID", "MsgCreateTime", "MsgContent"] 3 =
        (true, ["meslocalid", "msgcreatetime", "msgcontent"]) ∧
      extract_chat_data p ty now "Chat_100"
          ["meslocalid", "msgcreatetime", "msgcontent"]
          [[a1, b1, c1], [a2, b2, c2], [a3, b3, c3]] =
        [c1Record p ty now a1 b1 c1, c1Record p ty now a2 b2 c2,
         c1Record p ty now a3 b3 c3] ∧
      getField (c1Record p ty now a1 b1 c1) "sender" = some a1 ∧
      getField (c1Record p ty now a1 b1 c1) "timestamp" =
        some (optStr (convert_timestamp b1)) ∧
      getField (c1Record p ty now a1 b1 c1) "content" = some c1 ∧
      getField (c1Record p ty now a1 b1 c1) "message_id" = none := by
  intro p ty now a1 b1 c1 a2 b2 c2 a3 b3 c3 hb1 hb2 hb3
  have hroles : extractRoles ["meslocalid", "msgcreatetime", "msgcontent"] =
      ⟨some "meslocalid", some "msgcreatetime", some "msgcontent",
       some "meslocalid", none, none, none⟩ := by decide
  have hsf : buildSelectFields ["meslocalid", "msgcreatetime", "msgcontent"] =
      ["meslocalid", "msgcreatetime", "msgcontent", "meslocalid"] := by decide
  refine ⟨by decide, by decide, ?_, rfl, rfl, rfl, rfl⟩
  simp only [extract_chat_data, hroles, hsf]
  simp [selectRow, buildMessage, applyField, setField, initMsg, c1Record, hb1, hb2, hb3]

/-- Claim C1, witness: the amended theorem applied to three concrete
rows. -/
theorem c1_witness :
    Value.truthy (.int 1700000000) = true ∧
    extract_chat_data "/u/Message/msg.db" "Message" "T1" "Chat_100"
        ["meslocalid", "msgcreatetime", "msgcontent"]
        [[.int 1, .int 1700000000, .str "x"], [.int 2, .int 1700000001, .str "y"],
         [.int 3, .int 1700000002, .str "z"]] =
      [c1Record "/u/Message/msg.db" "Message" "T1" (.int 1) (.int 1700000000) (.str "x"),
       c1Record "/u/Message/msg.db" "Message" "T1" (.int 2) (.int 1700000001) (.str "y"),
       c1Record "/u/Message/msg.db" "Message" "T1" (.int 3) (.int 1700000002) (.str "z")] :=
  ⟨by decide,
   (c1_chat100_extraction "/u/Message/msg.db" "Message" "T1"
      (.int 1) (.int 1700000000) (.str "x") (.int 2) (.int 1700000001) (.str "y")
      (.int 3) (.int 1700000002) (.str "z")
      (by decide) (by decide) (by decide)).2.2.1⟩

/-- Claim C4: for every table name string, the chat-table name predicate is
true exactly when the lowercase name starts with `chat_`, `chatroom_`, or
`message_`, equals `chat`, matches `chat` followed only by digits, or
contains both `chat` and `room` as substrings; in particular it is true for
`Chat_1`, `chat`, `chat42`, `chatroom_7`, `message_5`, `ChatRoom` and false
for `UserInfo`, `Session`. -/
theorem c4_chat_table_name :
    (∀ name : String,
      isChatTableName name = true ↔
        (strStartsWith (pyLower name) "chat_" = true ∨
         strStartsWith (pyLower name) "chatroom_" = true ∨
         strStartsWith (pyLower name) "message_" = true ∨
         pyLower name = "chat" ∨
         matchesChatDigits (pyLower name) = true ∨
         (strContainsSub (pyLower name) "chat" = true ∧
          strContainsSub (pyLower name) "room" = true))) ∧
    isChatTableName "Chat_1" = true ∧ isChatTableName "chat" = true ∧
    isChatTableName "chat42" = true ∧ isChatTableName "chatroom_7" = true ∧
    isChatTableName "message_5" = true ∧ isChatTableName "ChatRoom" = true ∧
    isChatTableName "UserInfo" = false ∧ isChatTableName "Session" = false := by
  refine ⟨fun name => ?_, by decide⟩
  simp only [isChatTableName, Bool.or_eq_true, Bool.and_eq_true, beq_iff_eq]
  tauto

/-- Claim C2, counterexample: the table with the single column `xlocalidy`
and one row has a (lowercased) column name containing `localid` and at
least one row, yet `validate_chat_table` reports it invalid — the claimed
containment reading of the message-id check is false (the source tests
exact membership `col in columns`). -/
theorem c2_counterexample :
    (validate_chat_table ["xlocalidy"] 1).1 = false ∧
    strContainsSub (pyLower "xlocalidy") "localid" = true ∧
    (1 : Nat) ≠ 0 := by decide

/-- Claim C2 (amended): a zero-row table is always invalid; a table with at
least one row is valid iff some lowercased column name IS EXACTLY
`meslocalid`, `messvrid`, or `localid`, or some column name contains the
substring `time`, or some column name contains `content`, `message`, or
`msg`. -/
theorem c2_validate_table :
    ∀ (rawColumns : List String) (rowCount : Nat),
      (rowCount = 0 → (validate_chat_table rawColumns rowCount).1 = false) ∧
      (0 < rowCount →
        ((validate_chat_table rawColumns rowCount).1 = true ↔
          ((∃ col ∈ rawColumns, pyLower col = "meslocalid") ∨
           (∃ col ∈ rawColumns, pyLower col = "messvrid") ∨
           (∃ col ∈ rawColumns, pyLower col = "localid") ∨
           (∃ col ∈ rawColumns, strContainsSub (pyLower col) "time" = true) ∨
           (∃ col ∈ rawColumns,
              strContainsSub (pyLower col) "content" = true ∨
              strContainsSub (pyLower col) "message" = true ∨
              strContainsSub (pyLower col) "msg" = true)))) := by
  intro raw n
  refine ⟨fun h => by subst h; simp [validate_chat_table], fun h => ?_⟩
  have hn : (n == 0) = false := by simp; omega
  simp [validate_chat_table, hn, List.any_eq_true, beq_iff_eq, or_assoc]

/-- Claim C2, witness: the amended theorem applied to a concrete one-row
table with a `meslocalid` column and to a zero-row table. -/
theorem c2_witness :
    (0 < 1 ∧ (validate_chat_table ["MesLocalID"] 1).1 = true) ∧
    (validate_chat_table ["MesLocalID"] 0).1 = false :=
  ⟨⟨by decide, ((c2_validate_table ["MesLocalID"] 1).2 (by decide)).mpr
      (.inl ⟨"MesLocalID", by decide, by decide⟩)⟩,
   (c2_validate_table ["MesLocalID"] 0).1 rfl⟩

/-- Claim C6, counterexample: `10 ^ 15` is a numeric value greater than
`1e12`, yet the converter returns `None` rather than an ISO-8601 string —
the millisecond instant falls beyond year 9999, `datetime.fromtimestamp`
raises, and the handler returns `None`. -/
theorem c6_counterexample :
    ((10 : Int) ^ 15 > 10 ^ 12) ∧
    convert_timestamp (.int (10 ^ 15)) = none := by decide

/-- Claim C6 (amended): numeric values greater than `1e12` are converted as
millisecond epoch and values in `(1e9, 1e12]` as second epoch — yielding
the ISO-8601 string when the instant is representable (year at most 9999)
and null otherwise; values at most `1e9` yield null; `1700000000` yields a
second-epoch ISO string starting with `2023`, `1700000000000` yields the
same instant, `500` yields null; parseable ISO strings are normalized and
unparseable strings pass through unchanged. -/
theorem c6_convert_timestamp :
    (∀ n : Int, n ≤ 10 ^ 9 → convert_timestamp (.int n) = none) ∧
    (∀ n : Int, 10 ^ 12 < n → convert_timestamp (.int n) = epochToISOString (n / 1000)) ∧
    (∀ n : Int, 10 ^ 9 < n → n ≤ 10 ^ 12 → convert_timestamp (.int n) = epochToISOString n) ∧
    (convert_timestamp (.int 1700000000) = some "2023-11-14T22:13:20" ∧
     strStartsWith "2023-11-14T22:13:20" "2023" = true) ∧
    convert_timestamp (.int 1700000000000) = convert_timestamp (.int 1700000000) ∧
    convert_timestamp (.int 500) = none ∧
    (∀ (s : String) (dt : DateTime), parseISODateTime s = some dt →
      convert_timestamp (.str s) = some (renderDateTime dt)) ∧
    (∀ s : String, parseISODateTime s = none → convert_timestamp (.str s) = some s) := by
  have e9 : (10 : Int) ^ 9 = 1000000000 := by norm_num
  have e12 : (10 : Int) ^ 12 = 1000000000000 := by norm_num
  refine ⟨?_, ?_, ?_, by decide, by decide, by decide, ?_, ?_⟩
  · intro n h
    rw [e9] at h
    have h1 : ¬ (n > 10 ^ 12) := by rw [e12]; omega
    have h2 : ¬ (n > 10 ^ 9) := by rw [e9]; omega
    simp only [convert_timestamp, convertTimestampNum, if_neg h1, if_neg h2]
  · intro n h
    rw [e12] at h
    have h1 : n > 10 ^ 12 := by rw [e12]; omega
    simp only [convert_timestamp, convertTimestampNum, if_pos h1]
  · intro n h h2
    rw [e9] at h; rw [e12] at h2
    have h3 : ¬ (n > 10 ^ 12) := by rw [e12]; omega
    have h4 : n > 10 ^ 9 := by rw [e9]; omega
    simp only [convert_timestamp, convertTimestampNum, if_neg h3, if_pos h4]
  · intro s dt h; simp [convert_timestamp, h]
  · intro s h; simp [convert_timestamp, h]

/-- Claim C6, witness: the amended theorem applied at `500`, `10 ^ 13` and
two concrete strings. -/
theorem c6_witness :
    ((500 : Int) ≤ 10 ^ 9 ∧ convert_timestamp (.int 500) = none) ∧
    ((10 : Int) ^ 12 < 10 ^ 13 ∧
      convert_timestamp (.int (10 ^ 13)) = epochToISOString (10 ^ 13 / 1000)) ∧
    convert_timestamp (.str "2021-02-03") = some (renderDateTime ⟨2021, 2, 3, 0, 0, 0⟩) ∧
    convert_timestamp (.str "hello") = some "hello" :=
  ⟨⟨by decide, c6_convert_timestamp.1 500 (by decide)⟩,
   ⟨by decide, c6_convert_timestamp.2.1 (10 ^ 13) (by decide)⟩,
   c6_convert_timestamp.2.2.2.2.2.2.1 "2021-02-03" ⟨2021, 2, 3, 0, 0, 0⟩ (by decide),
   c6_convert_timestamp.2.2.2.2.2.2.2 "hello" (by decide)⟩

/-- Claim C9, counterexample: a validated table with (lowercased) columns
`sender` and `msgcreatetime` produces a record carrying the canonical
field `sender` even though no sender-role column was resolved (the sender
candidates are `meslocalid`, `messvrid`, `localid`): the physical column
named `sender` is passed through unmapped under its own name. -/
theorem c9_counterexample :
    (extractRoles ["sender", "msgcreatetime"]).sender = none ∧
    getField ((extract_chat_data "/p" "T" "T0" "Tbl" ["sender", "msgcreatetime"]
        [[.str "alice", .int 1700000000]]).getD 0 []) "sender" =
      some (.str "alice") ∧
    validate_chat_table ["Sender", "MsgCreateTime"] 1 =
      (true, ["sender", "msgcreatetime"]) := by decide

/-- Claim C9 (amended): every extracted record contains `database_path`,
`database_type`, `table_name` and `extracted_at`; each canonical role
field (`sender`, `timestamp`, `content`, `message_id`, `message_type`) is
present only if a matching column was resolved for that role, or the table
has a physical column bearing exactly that canonical name (which the
passthrough branch preserves under its original name). -/
theorem c9_record_fields :
    ∀ (dbPath dbType extractedAt tableName : String) (columns : List String)
      (rows : List (List Value)) (m : Msg),
      m ∈ extract_chat_data dbPath dbType extractedAt tableName columns rows →
      (getField m "database_path").isSome = true ∧
      (getField m "database_type").isSome = true ∧
      (getField m "table_name").isSome = true ∧
      (getField m "extracted_at").isSome = true ∧
      ((getField m "sender").isSome = true →
        (extractRoles columns).sender ≠ none ∨ "sender" ∈ columns) ∧
      ((getField m "timestamp").isSome = true →
        (extractRoles columns).time ≠ none ∨ "timestamp" ∈ columns) ∧
      ((getField m "content").isSome = true →
        (extractRoles columns).content ≠ none ∨ "content" ∈ columns) ∧
      ((getField m "message_id").isSome = true →
        (extractRoles columns).msgid ≠ none ∨ "message_id" ∈ columns) ∧
      ((getField m "message_type").isSome = true →
        (extractRoles columns).type ≠ none ∨ "message_type" ∈ columns) := by
  intro dbPath dbType extractedAt tableName columns rows m hm
  refine ⟨extract_base_present _ _ _ _ _ _ _ _ hm rfl,
    extract_base_present _ _ _ _ _ _ _ _ hm rfl,
    extract_base_present _ _ _ _ _ _ _ _ hm rfl,
    extract_base_present _ _ _ _ _ _ _ _ hm rfl, ?_, ?_, ?_, ?_, ?_⟩
  · intro h
    rcases extract_key_origin _ _ _ _ _ _ _ _ hm h with h0 | ⟨f, hf, hcase⟩
    · exact Bool.noConfusion h0
    · rcases hcase with ⟨hk, _⟩ | ⟨_, hrole⟩ | ⟨hk, _⟩ | ⟨hk, _⟩ | ⟨hk, _⟩ | hk
      · rcases hk with hk | hk <;> simp at hk
      · exact .inl (by rw [hrole]; simp)
      · simp at hk
      · simp at hk
      · simp at hk
      · exact .inr (by rw [hk]; exact buildSelectFields_mem columns f hf)
  · intro h
    rcases extract_key_origin _ _ _ _ _ _ _ _ hm h with h0 | ⟨f, hf, hcase⟩
    · exact Bool.noConfusion h0
    · rcases hcase with ⟨_, hrole⟩ | ⟨hk, _⟩ | ⟨hk, _⟩ | ⟨hk, _⟩ | ⟨hk, _⟩ | hk
      · exact .inl (by rw [hrole]; simp)
      · simp at hk
      · simp at hk
      · simp at hk
      · simp at hk
      · exact .inr (by rw [hk]; exact buildSelectFields_mem columns f hf)
  · intro h
    rcases extract_key_origin _ _ _ _ _ _ _ _ hm h with h0 | ⟨f, hf, hcase⟩
    · exact Bool.noConfusion h0
    · rcases hcase with ⟨hk, _⟩ | ⟨hk, _⟩ | ⟨_, hrole⟩ | ⟨hk, _⟩ | ⟨hk, _⟩ | hk
      · rcases hk with hk | hk <;> simp at hk
      · simp at hk
      · exact .inl (by rw [hrole]; simp)
      · simp at hk
      · simp at hk
      · exact .inr (by rw [hk]; exact buildSelectFields_mem columns f hf)
  · intro h
    rcases extract_key_origin _ _ _ _ _ _ _ _ hm h with h0 | ⟨f, hf, hcase⟩
    · exact Bool.noConfusion h0
    · rcases hcase with ⟨hk, _⟩ | ⟨hk, _⟩ | ⟨hk, _⟩ | ⟨_, hrole⟩ | ⟨hk, _⟩ | hk
      · rcases hk with hk | hk <;> simp at hk
      · simp at hk
      · simp at hk
      · exact .inl (by rw [hrole]; simp)
      · simp at hk
      · exact .inr (by rw [hk]; exact buildSelectFields_mem columns f hf)
  · intro h
    rcases extract_key_origin _ _ _ _ _ _ _ _ hm h with h0 | ⟨f, hf, hcase⟩
    · exact Bool.noConfusion h0
    · rcases hcase with ⟨hk, _⟩ | ⟨hk, _⟩ | ⟨hk, _⟩ | ⟨hk, _⟩ | ⟨_, hrole⟩ | hk
      · rcases hk with hk | hk <;> simp at hk
      · simp at hk
      · simp at hk
      · simp at hk
      · exact .inl (by rw [hrole]; simp)
      · exact .inr (by rw [hk]; exact buildSelectFields_mem columns f hf)

/-- Claim C9, witness: the amended theorem applied to the record extracted
from a concrete one-row table. -/
theorem c9_witness :
    (getField ((extract_chat_data "/p" "T" "T0" "Tbl" ["sender", "msgcreatetime"]
        [[.str "alice", .int 1700000000]]).getD 0 []) "database_path").isSome = true ∧
    ((getField ((extract_chat_data "/p" "T" "T0" "Tbl" ["sender", "msgcreatetime"]
        [[.str "alice", .int 1700000000]]).getD 0 []) "timestamp").isSome = true →
      (extractRoles ["sender", "msgcreatetime"]).time ≠ none ∨
        "timestamp" ∈ ["sender", "msgcreatetime"]) := by
  have hm : (extract_chat_data "/p" "T" "T0" "Tbl" ["sender", "msgcreatetime"]
      [[.str "alice", .int 1700000000]]).getD 0 [] ∈
      extract_chat_data "/p" "T" "T0" "Tbl" ["sender", "msgcreatetime"]
        [[.str "alice", .int 1700000000]] := by decide
  exact ⟨(c9_record_fields "/p" "T" "T0" "Tbl" _ _ _ hm).1,
    (c9_record_fields "/p" "T" "T0" "Tbl" _ _ _ hm).2.2.2.2.2.1⟩

/-- Claim C7, counterexample: for the key `x'AABB'` the second attempted
encoding is the original key again (`x'AABB'`), not the form stripped of
its wrapping markers (`AABB`) that the claim places second; the stripped
and bare-hex forms coincide and appear only once, last. -/
theorem c7_counterexample :
    keyFormats ("x" ++ sq ++ "AABB" ++ sq) ≠
      claimedKeyFormats ("x" ++ sq ++ "AABB" ++ sq) ∧
    (keyFormats ("x" ++ sq ++ "AABB" ++ sq))[1]? = some ("x" ++ sq ++ "AABB" ++ sq) ∧
    (claimedKeyFormats ("x" ++ sq ++ "AABB" ++ sq))[1]? = some "AABB" := by decide

/-- Claim C7 (amended): `connect_database` returns a handle under the first
key encoding whose probe query succeeds and fails only after every encoding
failed; for a hex-prefixed key the attempted encodings are the
reconstructed hex-prefixed form, the original key as given, a double-quoted
form, and the bare hex digits — for any other key they are the original, a
double-quoted form, and a hex-wrapped form. -/
theorem c7_connect_key_formats :
    (∀ (probe : String → Bool) (key : String),
      connect_database probe key = (keyFormats key).find? probe) ∧
    (∀ (probe : String → Bool) (key : String),
      connect_database probe key = none ↔ ∀ f ∈ keyFormats key, probe f = false) ∧
    (∀ key : String, (strStartsWith key ("x" ++ sq) && strEndsWith key sq) = true →
      (keyFormats key).length = 4 ∧
      (keyFormats key)[0]? = some ("x" ++ sq ++ (key.drop 2).dropRight 1 ++ sq) ∧
      (keyFormats key)[1]? = some key ∧
      (keyFormats key)[2]? = some (dq ++ key ++ dq) ∧
      (keyFormats key)[3]? = some ((key.drop 2).dropRight 1)) ∧
    (∀ key : String, (strStartsWith key ("x" ++ sq) && strEndsWith key sq) = false →
      keyFormats key = [key, dq ++ key ++ dq, "x" ++ sq ++ key ++ sq]) := by
  refine ⟨?_, ?_, ?_, ?_⟩
  · intro probe key; exact tryKeyFormats_eq_find probe (keyFormats key)
  · intro probe key
    rw [connect_database, tryKeyFormats_eq_find, List.find?_eq_none]
    constructor
    · intro h f hf; exact Bool.not_eq_true (probe f) |>.mp (h f hf)
    · intro h f hf; rw [h f hf]; simp
  · intro key h; simp [keyFormats, h]
  · intro key h; simp [keyFormats, h]

/-- Folding an append-accumulating function factors the initial
accumulator out front. -/
theorem foldl_append_acc {α β : Type} (f : α → List β) :
    ∀ (l : List α) (acc : List β),
      l.foldl (fun a x => a ++ f x) acc = acc ++ l.foldl (fun a x => a ++ f x) [] := by
  intro l
  induction l with
  | nil => intro acc; simp
  | cons x xs ih =>
    intro acc
    simp only [List.foldl_cons]
    rw [ih (acc ++ f x), ih ([] ++ f x)]
    simp

/-- A world with no decryptable database behind any path. -/
def trivialWorld : World := ⟨fun _ => ⟨fun _ => false, []⟩, "2026-01-01T00:00:00"⟩

/-- The keys text of the witness environments: one well-formed pair. -/
def oneKeyText : String := mkPathLine "/x/Message/a.db" ++ "\n" ++ mkKeyLine "K"

/-- Claim C10: descriptors whose database path does not exist at load time
are excluded from the database list, never reach a connection attempt, and
are not counted by the `total_databases` metadata. -/
theorem c10_load_keys_existing :
    ∀ (env : ExtractorEnv) (content : String), env.keysContent = some content →
      load_keys env = .ok ((parse_keys content).filter (fun d => env.fsExists d.path)) ∧
      (∀ dbs : List KeyDesc, load_keys env = .ok dbs →
        (∀ d ∈ processOrder dbs, env.fsExists d.path = true) ∧
        totalDatabasesMetadata dbs =
          ((parse_keys content).filter (fun d => env.fsExists d.path)).length) := by
  intro env content h
  have h1 : load_keys env =
      .ok ((parse_keys content).filter (fun d => env.fsExists d.path)) := by
    simp [load_keys, h]
  refine ⟨h1, fun dbs h2 => ?_⟩
  rw [h1, Except.ok.injEq] at h2
  subst h2
  refine ⟨fun d hd => ?_, rfl⟩
  rcases List.mem_append.mp hd with hd | hd <;>
    exact (List.mem_filter.mp (List.mem_filter.mp hd).1).2

/-- Claim C10, witness: the theorem applied to an environment whose
filesystem lacks the parsed database path, and to one that has it. -/
theorem c10_witness :
    load_keys ⟨some oneKeyText, fun _ => false, trivialWorld⟩ =
      .ok ((parse_keys oneKeyText).filter (fun _ => false)) ∧
    load_keys ⟨some oneKeyText, fun _ => true, trivialWorld⟩ =
      .ok ((parse_keys oneKeyText).filter (fun _ => true)) ∧
    (parse_keys oneKeyText).filter (fun (_ : KeyDesc) => false) = [] ∧
    (parse_keys oneKeyText).filter (fun (_ : KeyDesc) => true) =
      [⟨"/x/Message/a.db", "K", 3, "Message"⟩] :=
  ⟨(c10_load_keys_existing ⟨some oneKeyText, fun _ => false, trivialWorld⟩
      oneKeyText rfl).1,
   (c10_load_keys_existing ⟨some oneKeyText, fun _ => true, trivialWorld⟩
      oneKeyText rfl).1,
   by decide, by decide⟩

/-- Claim C3, counterexample: with a readable keys resource that parses to
zero usable descriptors, `run` returns normally (no exception) and the
process exits 0 — exactly the exit status of a successful run — whereas
only the unreadable-resource case exits 1. The claimed fatal/non-fatal
distinction between the zero-descriptor case and the zero-record case does
not exist in the code. -/
theorem c3_counterexample :
    run ⟨some "", fun _ => true, trivialWorld⟩ = .ok ⟨true, false, false⟩ ∧
    mainExitCode ⟨some "", fun _ => true, trivialWorld⟩ = 0 ∧
    mainExitCode ⟨none, fun _ => true, trivialWorld⟩ = 1 :=
  ⟨rfl, rfl, rfl⟩

/-- Claim C3 (amended): a missing or unreadable key resource is fatal
(exception, exit 1); a resource parsing to zero usable descriptors is
reported at error level and aborts further processing (no extraction, no
output artifact) but the run returns normally and the process exits 0;
zero extracted records after processing at least one database is reported
at warning level, writes no output, and also exits 0. -/
theorem c3_exit_behavior :
    (∀ env : ExtractorEnv, env.keysContent = none →
      run env = .error () ∧ mainExitCode env = 1) ∧
    (∀ (env : ExtractorEnv) (content : String), env.keysContent = some content →
      (parse_keys content).filter (fun d => env.fsExists d.path) = [] →
      run env = .ok ⟨true, false, false⟩ ∧ mainExitCode env = 0) ∧
    (∀ (env : ExtractorEnv) (content : String) (dbs : List KeyDesc),
      env.keysContent = some content →
      (parse_keys content).filter (fun d => env.fsExists d.path) = dbs →
      dbs ≠ [] → extract_all_chats env.world dbs = [] →
      run env = .ok ⟨false, true, false⟩ ∧ mainExitCode env = 0) := by
  refine ⟨?_, ?_, ?_⟩
  · intro env h
    have hr : run env = .error () := by simp [run, load_keys, h]
    exact ⟨hr, by simp [mainExitCode, hr]⟩
  · intro env content h hf
    have hr : run env = .ok ⟨true, false, false⟩ := by simp [run, load_keys, h, hf]
    exact ⟨hr, by simp [mainExitCode, hr]⟩
  · intro env content dbs h hf hne hext
    have hie : dbs.isEmpty = false := by
      cases dbs with
      | nil => exact absurd rfl hne
      | cons a as => rfl
    have hr : run env = .ok ⟨false, true, false⟩ := by
      simp [run, load_keys, h, hf, hie, hext]
    exact ⟨hr, by simp [mainExitCode, hr]⟩

/-- Claim C3, witness: the amended theorem applied to an unreadable
resource, an empty resource, and a resource with one database that fails
to decrypt. -/
theorem c3_witness :
    (run ⟨none, fun _ => true, trivialWorld⟩ = .error () ∧
      mainExitCode ⟨none, fun _ => true, trivialWorld⟩ = 1) ∧
    (run ⟨some "", fun _ => true, trivialWorld⟩ = .ok ⟨true, false, false⟩ ∧
      mainExitCode ⟨some "", fun _ => true, trivialWorld⟩ = 0) ∧
    (run ⟨some oneKeyText, fun _ => true, trivialWorld⟩ = .ok ⟨false, true, false⟩ ∧
      mainExitCode ⟨some oneKeyText, fun _ => true, trivialWorld⟩ = 0) :=
  ⟨c3_exit_behavior.1 ⟨none, fun _ => true, trivialWorld⟩ rfl,
   c3_exit_behavior.2.1 ⟨some "", fun _ => true, trivialWorld⟩ "" rfl (by decide),
   c3_exit_behavior.2.2 ⟨some oneKeyText, fun _ => true, trivialWorld⟩ oneKeyText
     [⟨"/x/Message/a.db", "K", 3, "Message"⟩] rfl (by decide) (by decide) rfl⟩

/-- Unfolding the database loop one descriptor at a time. -/
theorem processList_cons (w : World) (d : KeyDesc) (rest : List KeyDesc) :
    processList w (d :: rest) = processDatabase w d ++ processList w rest := by
  unfold processList
  rw [List.foldl_cons, foldl_append_acc]
  simp

/-- With the open call succeeding, the explicit attempt loop is exactly
the approved first-success loop. -/
theorem connectAttempts_false (probe : String → Bool) :
    ∀ (l : List String) (b : Bool),
      connectAttempts false probe l b = .ok (tryKeyFormats probe l)
  | [], _ => rfl
  | f :: rest, b => by
    by_cases h : probe f = true
    · simp [connectAttempts, tryKeyFormats, h]
    · simp [connectAttempts, tryKeyFormats, h, connectAttempts_false probe rest true]

/-- With no open failure on any path, the checked database loop never
errors and aggregates exactly what the plain loop aggregates. -/
theorem processListChecked_ok (w : World) :
    ∀ (dbs : List KeyDesc) (acc : List Msg),
      processListChecked w (fun _ => false) dbs acc = .ok (acc ++ processList w dbs)
  | [], acc => by simp [processListChecked, processList]
  | d :: rest, acc => by
    have hw : connect_database_checked ((fun (_ : String) => false) d.path)
        (w.content d.path).probe d.key =
        .ok (connect_database (w.content d.path).probe d.key) :=
      connectAttempts_false _ _ _
    simp only [processListChecked, hw]
    cases hc : connect_database (w.content d.path).probe d.key with
    | none =>
      rw [processListChecked_ok w rest acc, processList_cons]
      simp [processDatabase, hc]
    | some c =>
      have ih := processListChecked_ok w rest
        (acc ++ processTablesLoop w d (w.content d.path).tables
          (find_chat_tables ((w.content d.path).tables.map (fun t => t.name))))
      rw [ih, processList_cons]
      simp [processDatabase, hc, List.append_assoc]

/-- Claim C8 (a code bug in the source): the claim matches the evident
intent — the handler closes the connection and moves on, and the per-table
and per-database loops continue past failures — but when the low-level
open call itself raises on the first key attempt (for example on a path
that is an existing directory, which passes the `os.path.exists` filter),
the handler's `if conn:` reads an unbound local and the resulting
`UnboundLocalError` propagates uncaught through `extract_all_chats` and
`run`, aborting the whole run with exit 1 and discarding the records of
every other database. With no open failure the checked loop agrees with
the plain loop, which is the behaviour the claim describes. -/
theorem c8_run_abort :
    (∀ (probe : String → Bool) (key : String),
      connect_database_checked true probe key = .error ()) ∧
    (∀ (probe : String → Bool) (key : String),
      connect_database_checked false probe key = .ok (connect_database probe key)) ∧
    (∀ (w : World) (dbs : List KeyDesc) (acc : List Msg),
      processListChecked w (fun _ => false) dbs acc = .ok (acc ++ processList w dbs)) ∧
    processListChecked c8World (fun p => p == "/data/Message") [c8DirDb, c8GoodDb] [] =
      .error () ∧
    processListChecked c8World (fun _ => false) [c8DirDb, c8GoodDb] [] =
      .ok [[("database_path", .str "/data/Message/msg.db"),
            ("database_type", .str "Message"), ("table_name", .str "Chat_1"),
            ("extracted_at", .str "T0"), ("sender", .int 7), ("content", .str "hi")]] ∧
    processList c8World [c8DirDb, c8GoodDb] ≠ [] := by
  refine ⟨?_, ?_, processListChecked_ok, rfl, rfl, by decide⟩
  · intro probe key
    by_cases h : (strStartsWith key ("x" ++ sq) && strEndsWith key sq) = true
    · simp only [connect_database_checked, keyFormats, if_pos h]
      rfl
    · simp only [connect_database_checked, keyFormats, if_neg h]
      rfl
  · intro probe key
    exact connectAttempts_false probe (keyFormats key) false

/-- Claim C7, witness: the amended theorem applied to the hex-prefixed key
`x'AABB'`, a plain key, and a probe accepting only the bare hex form. -/
theorem c7_witness :
    ((strStartsWith ("x" ++ sq ++ "AABB" ++ sq) ("x" ++ sq) &&
        strEndsWith ("x" ++ sq ++ "AABB" ++ sq) sq) = true ∧
      (keyFormats ("x" ++ sq ++ "AABB" ++ sq))[1]? =
        some ("x" ++ sq ++ "AABB" ++ sq)) ∧
    connect_database (fun f => f == "AABB") ("x" ++ sq ++ "AABB" ++ sq) =
      (keyFormats ("x" ++ sq ++ "AABB" ++ sq)).find? (fun f => f == "AABB") ∧
    keyFormats "plain" = ["plain", dq ++ "plain" ++ dq, "x" ++ sq ++ "plain" ++ sq] :=
  ⟨⟨by decide, (c7_connect_key_formats.2.2.1 _ (by decide)).2.2.1⟩,
   c7_connect_key_formats.1 _ _,
   c7_connect_key_formats.2.2.2 "plain" (by decide)⟩

end WeChatExtractor
